import Mathlib

/-!
Verification development for the dynamic-graph batch-update generator
(`src/main.cxx`).

The scalar type `double` is modelled by `ℚ`.  The transcendental `log`
used by the fidelity scorer is kept abstract: every definition and
theorem that involves it is parameterised over an arbitrary function
`lg : ℚ → ℚ` standing for natural logarithm, since no claim depends on
the value of `log`, only on which terms are accumulated and when the
error path is taken.  Division by zero, which C++ doubles map to
±inf/NaN, is the one place where the `ℚ` model diverges (Lean's `x / 0
= 0`); no theorem below depends on the value of a division whose
divisor is zero.

External collaborators (the `DiGraph` type, the matrix-market reader,
the transforms, the batch generators `customUpdate` / `uniformUpdate` /
`preferentialUpdate`, the batch applier `applyBatchUpdateU`, and the
Mersenne-twister RNG) live in headers outside `src/` and are modelled
abstractly as fields of an `Externals` structure; the orchestration
logic of `handleOptions`, which is in `src/main.cxx`, is embedded
faithfully on top of them.
-/

namespace DynGraph

/-- The message of the `invalid_argument` thrown by `KLDivergence`
(`src/main.cxx` line 183). -/
def divergenceUndefinedMsg : String :=
  "Q[i] must be non-zero where P[i] is non-zero."

/-- The loop body of `KLDivergence` (`src/main.cxx` lines 177-187):
`i` is the current index, the second argument the number of remaining
iterations, `acc` the accumulator `divergence`.  An index beyond a
vector's length reads as `0` (the C++ code guards `i < P.size()`
explicitly, yielding `0.0` otherwise); `lg` stands for `log`. -/
def KLgo (lg : ℚ → ℚ) (P Q : List ℚ) : Nat → Nat → ℚ → Except String ℚ
  | _, 0, acc => Except.ok acc
  | i, k + 1, acc =>
    let pVal : ℚ := P.getD i 0
    let qVal : ℚ := Q.getD i 0
    if pVal ≠ 0 then
      if qVal = 0 then Except.error divergenceUndefinedMsg
      else KLgo lg P Q (i + 1) k (acc + pVal * lg (pVal / qVal))
    else KLgo lg P Q (i + 1) k acc

/-- `KLDivergence(P, Q)` from `src/main.cxx` lines 173-189: iterate
`i` from `0` to `max(P.size(), Q.size()) - 1` starting from
accumulator `0.0`.  The thrown `std::invalid_argument` is modelled as
`Except.error`. -/
def KLDivergence (lg : ℚ → ℚ) (P Q : List ℚ) : Except String ℚ :=
  KLgo lg P Q 0 (max P.length Q.length) 0

/-- `normalize(values)` from `src/main.cxx` lines 191-201: sum all
elements, then emit `value / sum` for each element in order.  The
source contains no error path: an empty input yields an empty vector
(the sum loop and the push loop both run zero times), and a zero-sum
input performs the division by zero. -/
def normalize (values : List ℚ) : List ℚ :=
  let sum : ℚ := values.sum
  values.map (fun value => value / sum)

/-- `degreeDistributionToProbability(distribution)` from
`src/main.cxx` lines 203-213.  The `std::map<size_t, size_t>` is
modelled as an association list in its iteration order, which for
`std::map` is ascending key order; the function sums all counts into
`totalVertices` and then emits `count / totalVertices` per entry in
that order. -/
def degreeDistributionToProbability (distribution : List (Nat × Nat)) : List ℚ :=
  let totalVertices : Nat := (distribution.map Prod.snd).sum
  distribution.map (fun pair => (pair.2 : ℚ) / (totalVertices : ℚ))

/-- C++ conversion of a `double` to `int64_t` truncates toward zero;
this models `batchSize = graph.size() * batchSizeRatio`
(`src/main.cxx` line 308). -/
def truncQ (q : ℚ) : Int :=
  if 0 ≤ q then ⌊q⌋ else ⌈q⌉

/-- Result of one call to an external batch generator: the produced
edge insertions and deletions (the `vector<tuple<int,int,int>>` output
parameters of `handleUpdateNature`) and the advanced RNG state. -/
structure BatchResult (R : Type) where
  insertions : List (Int × Int × Int)
  deletions : List (Int × Int × Int)
  rng : R

/-- The external collaborators consumed by the orchestration code in
`src/main.cxx`.  `G` is the graph type (`DiGraph<int,int,int>`), `R`
the RNG type (`mt19937_64`).  `initGraph` is the graph after
`handleInputFormat` and the `handleInputTransform` loop have run
(`src/main.cxx` lines 296-303), i.e. the state entering the round
loop; `size` is `graph.size()` (the edge count); `inDegreeDist` is the
`std::map` built by `calculateInDegreeDistribution`, as an association
list in ascending key order; `serialize` is the byte content produced
by `writeEdgeList` for a graph; `mkRng` is `mt19937_64 rng(seed)`.
`customUpdate` additionally returns the selection-weight vector, which
the other generators do not produce. -/
structure Externals (G R : Type) where
  initGraph : G
  size : G → Nat
  inDegreeDist : G → List (Nat × Nat)
  customUpdate : String → R → G → Int → ℚ → ℚ → Bool → List ℚ × BatchResult R
  uniformUpdate : R → G → Int → ℚ → ℚ → Bool → BatchResult R
  preferentialUpdate : R → G → Int → ℚ → ℚ → Bool → BatchResult R
  applyBatchUpdate : G → List (Int × Int × Int) → List (Int × Int × Int) → G
  serialize : G → String
  mkRng : Int → R

/-- `handleUpdateNature` from `src/main.cxx` lines 240-256.  The local
`insertions`/`deletions` vectors start empty; only the branch taken
fills them, and only the `""` (custom) branch assigns the caller's
`weights` vector — `uniform` and `preferential` call generators that
take no weight parameter, and `planted` / `match` are empty stubs, so
in all four of those branches `weights` stays empty.  Every
non-throwing branch falls through to
`applyBatchUpdateU(graph, deletions, insertions)` (line 255).  The
batch size is passed as `Int` (the C++ narrows `int64_t` to `size_t`
at the call; no claim exercises a negative value).  Returns the
mutated graph, the advanced RNG and the `weights` output parameter. -/
def handleUpdateNature {G R : Type} (E : Externals G R)
    (probabilityDistribution updateNature : String) (graph : G) (rng : R)
    (batchSize : Int) (edgeDeletions edgeInsertions : ℚ)
    (allowDuplicateEdges : Bool) : Except String (G × R × List ℚ) :=
  if updateNature = "" then
    let wb := E.customUpdate probabilityDistribution rng graph batchSize
      edgeInsertions edgeDeletions allowDuplicateEdges
    Except.ok (E.applyBatchUpdate graph wb.2.deletions wb.2.insertions, wb.2.rng, wb.1)
  else if updateNature = "uniform" then
    let b := E.uniformUpdate rng graph batchSize
      edgeInsertions edgeDeletions allowDuplicateEdges
    Except.ok (E.applyBatchUpdate graph b.deletions b.insertions, b.rng, [])
  else if updateNature = "preferential" then
    let b := E.preferentialUpdate rng graph batchSize
      edgeInsertions edgeDeletions allowDuplicateEdges
    Except.ok (E.applyBatchUpdate graph b.deletions b.insertions, b.rng, [])
  else if updateNature = "planted" then
    Except.ok (E.applyBatchUpdate graph [] [], rng, [])
  else if updateNature = "match" then
    Except.ok (E.applyBatchUpdate graph [] [], rng, [])
  else
    Except.error ("Unknown update nature: " ++ updateNature)

/-- The configuration values of `handleOptions` (`src/main.cxx` lines
270-295) that the round loop reads.  `seed = none` models an absent
`--seed` option, in which case `rd()` (the `random_device`) supplies
the seed; `multiBatch` is the round count (the source holds it in an
`int64_t`; only non-negative counts, for which `while (multiBatch--)`
runs exactly `multiBatch` iterations, are modelled). -/
structure Config where
  outputDir : String
  outputPrefix : String
  batchSize : Int
  batchSizeRatio : ℚ
  edgeInsertions : ℚ
  edgeDeletions : ℚ
  allowDuplicateEdges : Bool
  probabilityDistribution : String
  updateNature : String
  multiBatch : Nat
  seed : Option Int

/-- The mutable state of the round loop in `handleOptions`: the graph,
the RNG stream, the (sticky) `batchSize` variable and the output-file
`counter` (`src/main.cxx` lines 296-306). -/
structure LoopState (G R : Type) where
  graph : G
  rng : R
  batchSize : Int
  counter : Nat

/-- Observable steps of one round of the loop in `handleOptions`
(`src/main.cxx` lines 307-342).  `computeBatchSize` records the
effective batch size used this round; `writeOutput` records the path
and byte content of the file written by
`createOutputFile` + `writeOutput`; `scoreFidelity` records the
outcome of the `try { KLDivergence ... } catch` block — an
`Except.error` payload is the caught `invalid_argument` reported on
`cerr`, an `Except.ok` payload the divergence printed on `cout`. -/
inductive Event where
  | computeBatchSize : Int → Event
  | generateBatch : Event
  | applyBatch : Event
  | analyzeDistributions : Event
  | writeOutput : String → String → Event
  | scoreFidelity : Except String ℚ → Event

/-- The step kind of an `Event`, with payloads erased. -/
inductive Tag where
  | computeBatchSize : Tag
  | generateBatch : Tag
  | applyBatch : Tag
  | analyzeDistributions : Tag
  | writeOutput : Tag
  | scoreFidelity : Tag
deriving DecidableEq

/-- Erase an event's payload. -/
def Event.tag : Event → Tag
  | Event.computeBatchSize _ => Tag.computeBatchSize
  | Event.generateBatch => Tag.generateBatch
  | Event.applyBatch => Tag.applyBatch
  | Event.analyzeDistributions => Tag.analyzeDistributions
  | Event.writeOutput _ _ => Tag.writeOutput
  | Event.scoreFidelity _ => Tag.scoreFidelity

/-- Line 308 of `src/main.cxx`: `if (batchSize == 0) batchSize =
graph.size() * batchSizeRatio;` — the value the round actually uses. -/
def effectiveBatchSize {G R : Type} (E : Externals G R) (cfg : Config)
    (st : LoopState G R) : Int :=
  if st.batchSize = 0 then truncQ ((E.size st.graph : ℚ) * cfg.batchSizeRatio)
  else st.batchSize

/-- One iteration of `while (multiBatch--)` (`src/main.cxx` lines
307-342), returning the updated loop state and the round's event
sequence in program order: batch-size computation (308), generation
and application of the batch inside `handleUpdateNature` (310),
distribution analysis (317-326), file creation and writing with the
pre-incremented counter (328-329), and finally the guarded fidelity
scoring (336-341).  A throw out of `handleUpdateNature` propagates
(aborting the run); the `KLDivergence` throw is caught locally and
recorded in the `scoreFidelity` event. -/
def roundStep {G R : Type} (E : Externals G R) (cfg : Config) (lg : ℚ → ℚ)
    (st : LoopState G R) : Except String (LoopState G R × List Event) :=
  let bs : Int := effectiveBatchSize E cfg st
  match handleUpdateNature E cfg.probabilityDistribution cfg.updateNature
      st.graph st.rng bs cfg.edgeDeletions cfg.edgeInsertions
      cfg.allowDuplicateEdges with
  | Except.error msg => Except.error msg
  | Except.ok (g2, rng2, weights) =>
    let nwActual : List ℚ := normalize weights
    let nwReal : List ℚ := degreeDistributionToProbability (E.inDegreeDist g2)
    let counter2 : Nat := st.counter + 1
    let path : String := cfg.outputDir ++ cfg.outputPrefix ++ "_" ++ toString counter2
    Except.ok ({ graph := g2, rng := rng2, batchSize := bs, counter := counter2 },
      [Event.computeBatchSize bs, Event.generateBatch, Event.applyBatch,
       Event.analyzeDistributions, Event.writeOutput path (E.serialize g2),
       Event.scoreFidelity (KLDivergence lg nwReal nwActual)])

/-- The round loop of `handleOptions`, producing one event segment per
round; a throw aborts the remaining rounds. -/
def runRounds {G R : Type} (E : Externals G R) (cfg : Config) (lg : ℚ → ℚ) :
    Nat → LoopState G R → Except String (List (List Event))
  | 0, _ => Except.ok []
  | n + 1, st =>
    match roundStep E cfg lg st with
    | Except.error msg => Except.error msg
    | Except.ok (st2, evs) =>
      match runRounds E cfg lg n st2 with
      | Except.error msg => Except.error msg
      | Except.ok segs => Except.ok (evs :: segs)

/-- The state entering the round loop: `int counter = 0; mt19937_64
rng(seed);` with the configured `batchSize` (`src/main.cxx` lines
304-306). -/
def initState {G R : Type} (E : Externals G R) (cfg : Config) (seed : Int) :
    LoopState G R :=
  { graph := E.initGraph, rng := E.mkRng seed, batchSize := cfg.batchSize,
    counter := 0 }

/-- The round-loop portion of `handleOptions` (`src/main.cxx` lines
294-342) as a flat event trace.  `deviceEntropy` models the value
`rd()` would produce; it is consulted only when no seed option is
present (line 295). -/
def handleOptions {G R : Type} (E : Externals G R) (cfg : Config) (lg : ℚ → ℚ)
    (deviceEntropy : Int) : Except String (List Event) :=
  match runRounds E cfg lg cfg.multiBatch
      (initState E cfg (cfg.seed.getD deviceEntropy)) with
  | Except.error msg => Except.error msg
  | Except.ok segs => Except.ok segs.flatten

/-- The files a trace writes, as (path, content) pairs in order. -/
def writeEvents (tr : List Event) : List (String × String) :=
  tr.filterMap fun e => match e with
    | Event.writeOutput p c => some (p, c)
    | _ => none

/-- The effective batch sizes a trace used, in round order. -/
def batchSizes (tr : List Event) : List Int :=
  tr.filterMap fun e => match e with
    | Event.computeBatchSize b => some b
    | _ => none

/-- The fixed tag sequence every round emits. -/
def perRoundTags : List Tag :=
  [Tag.computeBatchSize, Tag.generateBatch, Tag.applyBatch,
   Tag.analyzeDistributions, Tag.writeOutput, Tag.scoreFidelity]

/-- Stand-in for the abstract logarithm when a concrete run is needed;
no claim depends on the logarithm's values. -/
def lnStub : ℚ → ℚ := fun q => q

/-- A concrete instantiation of the external collaborators for witness
runs: the graph is just its edge count, the RNG a step counter; each
applied batch adds five edges, and the in-degree map has a single
bucket holding the edge count. -/
def E₀ : Externals Nat Nat where
  initGraph := 5
  size := fun g => g
  inDegreeDist := fun g => [(0, g)]
  customUpdate := fun _ r g _ _ _ _ =>
    ((List.replicate g (1 : ℚ)), { insertions := [(0, 1, 1)], deletions := [], rng := r + 1 })
  uniformUpdate := fun r _ _ _ _ _ =>
    { insertions := [(0, 1, 1)], deletions := [], rng := r + 1 }
  preferentialUpdate := fun r _ _ _ _ _ =>
    { insertions := [(0, 1, 1)], deletions := [], rng := r + 1 }
  applyBatchUpdate := fun g _ _ => g + 5
  serialize := fun g => toString g
  mkRng := fun s => s.toNat

/-- A one-round configuration with a fixed nonzero batch size. -/
def cfgOne : Config where
  outputDir := "out/"
  outputPrefix := "g"
  batchSize := 3
  batchSizeRatio := 0
  edgeInsertions := 1/10
  edgeDeletions := 1/20
  allowDuplicateEdges := true
  probabilityDistribution := ""
  updateNature := "uniform"
  multiBatch := 1
  seed := some 7

/-- A two-round configuration with a fixed nonzero batch size. -/
def cfgTwo : Config where
  outputDir := "out/"
  outputPrefix := "g"
  batchSize := 3
  batchSizeRatio := 0
  edgeInsertions := 1/10
  edgeDeletions := 1/20
  allowDuplicateEdges := true
  probabilityDistribution := ""
  updateNature := "uniform"
  multiBatch := 2
  seed := some 7

/-- A two-round configuration with batch size unset (zero) and
batch-size-ratio 1/10, so the first round derives
`⌊5 × 1/10⌋ = 0`. -/
def cfgZero : Config where
  outputDir := "out/"
  outputPrefix := "g"
  batchSize := 0
  batchSizeRatio := 1/10
  edgeInsertions := 1/10
  edgeDeletions := 1/20
  allowDuplicateEdges := true
  probabilityDistribution := ""
  updateNature := "uniform"
  multiBatch := 2
  seed := some 7

/-- The event trace of the one-round witness run. -/
def trOne : List Event := (handleOptions E₀ cfgOne lnStub 0).toOption.getD []

/-- The event trace of the two-round witness run. -/
def trTwo : List Event := (handleOptions E₀ cfgTwo lnStub 0).toOption.getD []

/-- The event trace of the unset-batch-size witness run. -/
def trZero : List Event := (handleOptions E₀ cfgZero lnStub 0).toOption.getD []

/-- The example degree distribution from the specification:
degrees 0, 1, 2 with counts 2, 3, 5. -/
def exampleDist : List (Nat × Nat) := [(0, 2), (1, 3), (2, 5)]

/-- The loop of `KLDivergence` starting at index `i` with `k`
iterations left and accumulator `acc`: it throws exactly when some
remaining index has a nonzero `P` entry against a zero `Q` entry, and
otherwise returns `acc` plus the remaining contributions. -/
theorem KLgo_spec (lg : ℚ → ℚ) (P Q : List ℚ) :
    ∀ (k i : Nat) (acc : ℚ),
      KLgo lg P Q i k acc =
        if ∃ j ∈ List.range' i k, P.getD j 0 ≠ 0 ∧ Q.getD j 0 = 0 then
          Except.error divergenceUndefinedMsg
        else
          Except.ok (acc + ((List.range' i k).map (fun j =>
            if P.getD j 0 = 0 then 0
            else P.getD j 0 * lg (P.getD j 0 / Q.getD j 0))).sum) := by
  intro k
  induction k with
  | zero => intro i acc; simp [KLgo]
  | succ k ih =>
    intro i acc
    rw [List.range'_succ]
    have hunf : KLgo lg P Q i (k + 1) acc =
        (if P.getD i 0 ≠ 0 then
          (if Q.getD i 0 = 0 then Except.error divergenceUndefinedMsg
           else KLgo lg P Q (i + 1) k (acc + P.getD i 0 * lg (P.getD i 0 / Q.getD i 0)))
         else KLgo lg P Q (i + 1) k acc) := rfl
    by_cases hp : P.getD i 0 = 0
    · have hcons : (∃ j ∈ i :: List.range' (i + 1) k, P.getD j 0 ≠ 0 ∧ Q.getD j 0 = 0) ↔
          ∃ j ∈ List.range' (i + 1) k, P.getD j 0 ≠ 0 ∧ Q.getD j 0 = 0 := by
        constructor
        · rintro ⟨j, hj, hbad⟩
          rcases List.mem_cons.mp hj with rfl | hj2
          · exact absurd hp hbad.1
          · exact ⟨j, hj2, hbad⟩
        · rintro ⟨j, hj, hbad⟩
          exact ⟨j, List.mem_cons_of_mem _ hj, hbad⟩
      rw [hunf, if_neg (not_not_intro hp), ih]
      simp only [List.map_cons, List.sum_cons]
      rw [if_pos hp, zero_add]
      exact (if_congr hcons rfl rfl).symm
    · by_cases hq : Q.getD i 0 = 0
      · rw [hunf, if_pos hp, if_pos hq,
          if_pos (⟨i, List.mem_cons_self i _, hp, hq⟩ :
            ∃ j ∈ i :: List.range' (i + 1) k, P.getD j 0 ≠ 0 ∧ Q.getD j 0 = 0)]
      · have hcons : (∃ j ∈ i :: List.range' (i + 1) k, P.getD j 0 ≠ 0 ∧ Q.getD j 0 = 0) ↔
            ∃ j ∈ List.range' (i + 1) k, P.getD j 0 ≠ 0 ∧ Q.getD j 0 = 0 := by
          constructor
          · rintro ⟨j, hj, hbad⟩
            rcases List.mem_cons.mp hj with rfl | hj2
            · exact absurd hbad.2 hq
            · exact ⟨j, hj2, hbad⟩
          · rintro ⟨j, hj, hbad⟩
            exact ⟨j, List.mem_cons_of_mem _ hj, hbad⟩
        rw [hunf, if_pos hp, if_neg hq, ih]
        simp only [List.map_cons, List.sum_cons]
        rw [if_neg hp, ← add_assoc]
        exact (if_congr hcons rfl rfl).symm

/-- Claim C1: `KLDivergence(P, Q)` fails with the DivergenceUndefined
error exactly when some index `i` below `max(len(P), len(Q))` has
`P[i]` nonzero and `Q[i]` zero (a missing entry reading as `0`), and
otherwise returns the sum over all such indices of
`P[i] · log(P[i]/Q[i])`, an index with `P[i] = 0` contributing
nothing (its `Q` entry never inspected). -/
theorem KLDivergence_spec (lg : ℚ → ℚ) (P Q : List ℚ) :
    KLDivergence lg P Q =
      if ∃ i ∈ List.range (max P.length Q.length), P.getD i 0 ≠ 0 ∧ Q.getD i 0 = 0 then
        Except.error divergenceUndefinedMsg
      else
        Except.ok (((List.range (max P.length Q.length)).map (fun i =>
          if P.getD i 0 = 0 then 0
          else P.getD i 0 * lg (P.getD i 0 / Q.getD i 0))).sum) := by
  rw [KLDivergence, KLgo_spec, List.range_eq_range', zero_add]

/-- Claim C3 counterexample: `normalize` contains no error path.  On
the empty input — which the claim asserts must fail with a
NormalizationError — the source's two loops run zero times and the
function returns the empty vector. -/
theorem normalize_empty_returns_vector : normalize ([] : List ℚ) = [] := rfl

/-- Claim C3 amended: `normalize` never signals an error; for every
input (empty and zero-sum inputs included) it returns a vector of the
same length as the input.  (On a zero-sum input the C++ code performs
the division by zero, yielding non-finite IEEE values; it still
returns a vector.) -/
theorem normalize_total_length (values : List ℚ) :
    (normalize values).length = values.length := by
  simp [normalize]

/-- Claim C9: for a nonempty weight sequence with positive sum,
`normalize` keeps the length, divides every element by the total, and
the result sums to exactly 1. -/
theorem normalize_spec (values : List ℚ) (hne : values ≠ [])
    (hpos : 0 < values.sum) :
    (normalize values).length = values.length ∧
    normalize values = values.map (fun v => v / values.sum) ∧
    (normalize values).sum = 1 := by
  refine ⟨by simp [normalize], rfl, ?_⟩
  have hsum : (normalize values).sum = values.sum * (values.sum)⁻¹ := by
    simp only [normalize, div_eq_mul_inv]
    rw [List.sum_map_mul_right, List.map_id']
  rw [hsum, mul_inv_cancel₀ (ne_of_gt hpos)]

/-- Claim C9 witness at the concrete input `[1, 3]`. -/
theorem normalize_spec_witness :
    (normalize [1, 3]).length = ([1, 3] : List ℚ).length ∧
    normalize [1, 3] = ([1, 3] : List ℚ).map (fun v => v / ([1, 3] : List ℚ).sum) ∧
    (normalize ([1, 3] : List ℚ)).sum = 1 :=
  normalize_spec [1, 3] (by decide) (by norm_num)

/-- Claim C2 counterexample: the empty degree distribution is a finite
map from degree to (vacuously positive) vertex count, yet
`degreeDistributionToProbability` maps it to the empty vector, whose
entries sum to 0, not 1. -/
theorem degreeDistributionToProbability_empty_not_prob :
    degreeDistributionToProbability [] = [] ∧
    (degreeDistributionToProbability []).sum ≠ 1 := by
  exact ⟨rfl, by norm_num [degreeDistributionToProbability]⟩

/-- Claim C2 amended: for every nonempty degree distribution (an
ascending-key association list with positive counts),
`degreeDistributionToProbability` emits one entry per distinct degree
key in that order, each equal to the key's count divided by the total
count, so its length is the number of distinct degrees and its
entries sum to exactly 1. -/
theorem degreeDistributionToProbability_spec (d : List (Nat × Nat))
    (hne : d ≠ []) (hpos : ∀ p ∈ d, 0 < p.2)
    (hsorted : d.Chain' (fun a b => a.1 < b.1)) :
    degreeDistributionToProbability d =
      d.map (fun p => (p.2 : ℚ) / ((d.map Prod.snd).sum : ℚ)) ∧
    (degreeDistributionToProbability d).length = d.length ∧
    (degreeDistributionToProbability d).sum = 1 := by
  refine ⟨rfl, by simp [degreeDistributionToProbability], ?_⟩
  have htot : 0 < (d.map Prod.snd).sum := by
    apply List.sum_pos
    · intro x hx
      rcases List.mem_map.mp hx with ⟨p, hp, rfl⟩
      exact hpos p hp
    · simpa using hne
  have hcast : ((d.map Prod.snd).sum : ℚ) ≠ 0 := by
    exact_mod_cast Nat.pos_iff_ne_zero.mp htot
  have hsum : (degreeDistributionToProbability d).sum =
      ((d.map Prod.snd).sum : ℚ) * (((d.map Prod.snd).sum : ℚ))⁻¹ := by
    simp only [degreeDistributionToProbability, div_eq_mul_inv]
    rw [List.sum_map_mul_right]
    congr 1
    rw [Nat.cast_list_sum, List.map_map]
    rfl
  rw [hsum, mul_inv_cancel₀ hcast]

/-- Claim C2 witness at the spec's example distribution
`{0:2, 1:3, 2:5}`, which indeed yields `[0.2, 0.3, 0.5]`. -/
theorem degreeDistributionToProbability_spec_witness :
    (degreeDistributionToProbability exampleDist =
       exampleDist.map (fun p => (p.2 : ℚ) / ((exampleDist.map Prod.snd).sum : ℚ)) ∧
     (degreeDistributionToProbability exampleDist).length = exampleDist.length ∧
     (degreeDistributionToProbability exampleDist).sum = 1) ∧
    degreeDistributionToProbability exampleDist = [1/5, 3/10, 1/2] :=
  ⟨degreeDistributionToProbability_spec exampleDist (by decide) (by decide)
    (by norm_num [exampleDist]), by norm_num [degreeDistributionToProbability, exampleDist]⟩

/-- Claim C10: every update-nature other than the empty string leaves
the selection-weights output vector empty — the source assigns
`weights` only in the custom (`""`) branch, and a fresh empty vector
is handed in each round — so whatever the generator did, a successful
call returns an empty weight list, and `normalize` then receives (and
returns) a length-zero vector. -/
theorem handleUpdateNature_weights_empty {G R : Type} (E : Externals G R)
    (probabilityDistribution updateNature : String) (graph : G) (rng : R)
    (batchSize : Int) (edgeDeletions edgeInsertions : ℚ)
    (allowDuplicateEdges : Bool) (g2 : G) (rng2 : R) (w : List ℚ)
    (hu : updateNature ≠ "")
    (h : handleUpdateNature E probabilityDistribution updateNature graph rng
      batchSize edgeDeletions edgeInsertions allowDuplicateEdges =
      Except.ok (g2, rng2, w)) :
    w = [] ∧ normalize w = [] := by
  rw [handleUpdateNature, if_neg hu] at h
  by_cases h1 : updateNature = "uniform"
  · rw [if_pos h1] at h
    cases h
    exact ⟨rfl, rfl⟩
  · rw [if_neg h1] at h
    by_cases h2 : updateNature = "preferential"
    · rw [if_pos h2] at h
      cases h
      exact ⟨rfl, rfl⟩
    · rw [if_neg h2] at h
      by_cases h3 : updateNature = "planted"
      · rw [if_pos h3] at h
        cases h
        exact ⟨rfl, rfl⟩
      · rw [if_neg h3] at h
        by_cases h4 : updateNature = "match"
        · rw [if_pos h4] at h
          cases h
          exact ⟨rfl, rfl⟩
        · rw [if_neg h4] at h
          cases h

/-- Claim C10 witness: a concrete successful `uniform` call whose
returned weight vector is empty. -/
theorem handleUpdateNature_weights_empty_witness :
    ([] : List ℚ) = [] ∧ normalize [] = [] :=
  handleUpdateNature_weights_empty E₀ "" "uniform" 5 0 3 (1/20) (1/10) true
    10 1 [] (by decide) rfl

/-- Claim C8: when the configuration carries an explicit RNG seed, the
run never consults the `random_device`, so two runs with identical
configuration and externals produce identical event traces — in
particular byte-identical sequences of output files — whatever entropy
the device would have supplied. -/
theorem handleOptions_deterministic {G R : Type} (E : Externals G R)
    (cfg : Config) (lg : ℚ → ℚ) (s : Int) (hseed : cfg.seed = some s)
    (e1 e2 : Int) :
    handleOptions E cfg lg e1 = handleOptions E cfg lg e2 ∧
    (handleOptions E cfg lg e1).map writeEvents =
      (handleOptions E cfg lg e2).map writeEvents := by
  have h : handleOptions E cfg lg e1 = handleOptions E cfg lg e2 := by
    rw [handleOptions, handleOptions, hseed]
    simp only [Option.getD_some]
  exact ⟨h, by rw [h]⟩

/-- Claim C8 witness at the concrete seeded two-round configuration,
with device entropies 0 and 1. -/
theorem handleOptions_deterministic_witness :
    handleOptions E₀ cfgTwo lnStub 0 = handleOptions E₀ cfgTwo lnStub 1 ∧
    (handleOptions E₀ cfgTwo lnStub 0).map writeEvents =
      (handleOptions E₀ cfgTwo lnStub 1).map writeEvents :=
  handleOptions_deterministic E₀ cfgTwo lnStub 7 rfl 0 1

/-- Shape of a successful round: the updated state carries the
effective batch size and the incremented counter, and the round's
events are exactly the six steps in program order, the write carrying
the counter-indexed path. -/
theorem roundStep_ok_shape {G R : Type} (E : Externals G R) (cfg : Config)
    (lg : ℚ → ℚ) (st st2 : LoopState G R) (evs : List Event)
    (h : roundStep E cfg lg st = Except.ok (st2, evs)) :
    st2.batchSize = effectiveBatchSize E cfg st ∧
    st2.counter = st.counter + 1 ∧
    ∃ sc, evs = [Event.computeBatchSize (effectiveBatchSize E cfg st),
      Event.generateBatch, Event.applyBatch, Event.analyzeDistributions,
      Event.writeOutput
        (cfg.outputDir ++ cfg.outputPrefix ++ "_" ++ toString (st.counter + 1))
        (E.serialize st2.graph),
      Event.scoreFidelity sc] := by
  revert h
  simp only [roundStep]
  cases hn : handleUpdateNature E cfg.probabilityDistribution cfg.updateNature
      st.graph st.rng (effectiveBatchSize E cfg st) cfg.edgeDeletions
      cfg.edgeInsertions cfg.allowDuplicateEdges with
  | error m => intro h; cases h
  | ok t =>
    obtain ⟨g2, rng2, w⟩ := t
    intro h
    injection h with h1
    injection h1 with hst hevs
    subst hst
    subst hevs
    exact ⟨rfl, rfl, _, rfl⟩

/-- A round's success, its resulting state, its write events and its
event tags do not depend on the logarithm the fidelity scorer uses:
only the `scoreFidelity` payload can differ. -/
theorem roundStep_lg_indep {G R : Type} (E : Externals G R) (cfg : Config)
    (lg lg2 : ℚ → ℚ) (st : LoopState G R) :
    (roundStep E cfg lg st).map (fun r => (r.1, writeEvents r.2, r.2.map Event.tag)) =
    (roundStep E cfg lg2 st).map (fun r => (r.1, writeEvents r.2, r.2.map Event.tag)) := by
  simp only [roundStep]
  cases hn : handleUpdateNature E cfg.probabilityDistribution cfg.updateNature
      st.graph st.rng (effectiveBatchSize E cfg st) cfg.edgeDeletions
      cfg.edgeInsertions cfg.allowDuplicateEdges with
  | error m => rfl
  | ok t =>
    obtain ⟨g2, rng2, w⟩ := t
    rfl

/-- Induction backbone for the round loop: a completed run of `n`
rounds from state `st` yields one six-step segment per round; the
written paths carry consecutive counters starting from
`st.counter + 1`; the tag sequence is `n` copies of the per-round
order; and the effective batch sizes start from the state's (derived
if zero) value, stay fixed once nonzero, and never leave a nonzero
configured value. -/
theorem runRounds_master {G R : Type} (E : Externals G R) (cfg : Config)
    (lg : ℚ → ℚ) :
    ∀ (n : Nat) (st : LoopState G R) (segs : List (List Event)),
      runRounds E cfg lg n st = Except.ok segs →
      segs.length = n ∧
      (∀ seg ∈ segs, ∃ bs p c sc, seg =
        [Event.computeBatchSize bs, Event.generateBatch, Event.applyBatch,
         Event.analyzeDistributions, Event.writeOutput p c,
         Event.scoreFidelity sc]) ∧
      (writeEvents segs.flatten).map Prod.fst =
        (List.range n).map (fun i =>
          cfg.outputDir ++ cfg.outputPrefix ++ "_" ++ toString (st.counter + i + 1)) ∧
      segs.flatten.map Event.tag = (List.replicate n perRoundTags).flatten ∧
      (0 < n → (batchSizes segs.flatten).head? =
        some (effectiveBatchSize E cfg st)) ∧
      List.Chain' (fun a b => a ≠ 0 → b = a) (batchSizes segs.flatten) ∧
      (st.batchSize ≠ 0 → ∀ b ∈ batchSizes segs.flatten, b = st.batchSize) := by
  intro n
  induction n with
  | zero =>
    intro st segs h
    simp only [runRounds] at h
    injection h with h2
    subst h2
    simp [writeEvents, batchSizes]
  | succ n ih =>
    intro st segs h
    simp only [runRounds] at h
    cases hr : roundStep E cfg lg st with
    | error m => simp only [hr] at h; exact Except.noConfusion h
    | ok pr =>
      obtain ⟨st2, evs⟩ := pr
      simp only [hr] at h
      cases hs : runRounds E cfg lg n st2 with
      | error m => simp only [hs] at h; exact Except.noConfusion h
      | ok rest =>
        simp only [hs] at h
        injection h with h2
        subst h2
        obtain ⟨hbs2, hcnt2, sc, hevs⟩ := roundStep_ok_shape E cfg lg st st2 evs hr
        obtain ⟨ihlen, ihshape, ihpaths, ihtags, ihhead, ihchain, ihall⟩ := ih st2 rest hs
        subst hevs
        have hflat : ([Event.computeBatchSize (effectiveBatchSize E cfg st),
            Event.generateBatch, Event.applyBatch, Event.analyzeDistributions,
            Event.writeOutput
              (cfg.outputDir ++ cfg.outputPrefix ++ "_" ++ toString (st.counter + 1))
              (E.serialize st2.graph),
            Event.scoreFidelity sc] :: rest).flatten =
            Event.computeBatchSize (effectiveBatchSize E cfg st) ::
            Event.generateBatch :: Event.applyBatch :: Event.analyzeDistributions ::
            Event.writeOutput
              (cfg.outputDir ++ cfg.outputPrefix ++ "_" ++ toString (st.counter + 1))
              (E.serialize st2.graph) ::
            Event.scoreFidelity sc :: rest.flatten := by
          simp
        have hwe : writeEvents
            (Event.computeBatchSize (effectiveBatchSize E cfg st) ::
             Event.generateBatch :: Event.applyBatch :: Event.analyzeDistributions ::
             Event.writeOutput
               (cfg.outputDir ++ cfg.outputPrefix ++ "_" ++ toString (st.counter + 1))
               (E.serialize st2.graph) ::
             Event.scoreFidelity sc :: rest.flatten) =
            (cfg.outputDir ++ cfg.outputPrefix ++ "_" ++ toString (st.counter + 1),
             E.serialize st2.graph) :: writeEvents rest.flatten := by
          simp [writeEvents]
        have hbsz : batchSizes
            (Event.computeBatchSize (effectiveBatchSize E cfg st) ::
             Event.generateBatch :: Event.applyBatch :: Event.analyzeDistributions ::
             Event.writeOutput
               (cfg.outputDir ++ cfg.outputPrefix ++ "_" ++ toString (st.counter + 1))
               (E.serialize st2.graph) ::
             Event.scoreFidelity sc :: rest.flatten) =
            effectiveBatchSize E cfg st :: batchSizes rest.flatten := by
          simp [batchSizes]
        refine ⟨by simp [ihlen], ?_, ?_, ?_, ?_, ?_, ?_⟩
        · intro seg hmem
          rcases List.mem_cons.mp hmem with rfl | hmem2
          · exact ⟨effectiveBatchSize E cfg st, _, _, sc, rfl⟩
          · exact ihshape seg hmem2
        · rw [hflat, hwe, List.map_cons, ihpaths, List.range_succ_eq_map,
            List.map_cons, List.map_map]
          have htail : (List.range n).map (fun i =>
              cfg.outputDir ++ cfg.outputPrefix ++ "_" ++ toString (st2.counter + i + 1)) =
              (List.range n).map ((fun i =>
              cfg.outputDir ++ cfg.outputPrefix ++ "_" ++ toString (st.counter + i + 1)) ∘ Nat.succ) := by
            apply List.map_congr_left
            intro i hi
            simp only [Function.comp_apply]
            have h3 : st2.counter + i + 1 = st.counter + (i + 1) + 1 := by omega
            rw [h3]
          rw [htail]
        · rw [hflat]
          simp only [List.map_cons, List.replicate_succ, List.flatten_cons, ihtags]
          rfl
        · intro hpos
          rw [hflat, hbsz]
          rfl
        · rw [hflat, hbsz, List.chain'_cons']
          refine ⟨?_, ihchain⟩
          intro b hb hnz
          rcases Nat.eq_zero_or_pos n with hn0 | hnpos
          · subst hn0
            have hrest : rest = [] := List.length_eq_zero.mp ihlen
            subst hrest
            simp [batchSizes] at hb
          · rw [ihhead hnpos] at hb
            have hb2 : effectiveBatchSize E cfg st2 = b := by simpa using hb
            rw [← hb2, effectiveBatchSize, hbs2, if_neg hnz]
        · intro hnz b hb
          rw [hflat, hbsz] at hb
          have heff : effectiveBatchSize E cfg st = st.batchSize := if_neg hnz
          rcases List.mem_cons.mp hb with rfl | hb2
          · exact heff
          · have hst2 : st2.batchSize ≠ 0 := by
              rw [hbs2, heff]; exact hnz
            have hb3 := ihall hst2 b hb2
            rw [hb3, hbs2, heff]

/-- `writeEvents` distributes over append. -/
theorem writeEvents_append (l1 l2 : List Event) :
    writeEvents (l1 ++ l2) = writeEvents l1 ++ writeEvents l2 :=
  List.filterMap_append l1 l2 _

/-- A whole run's success, written files and event tags are
independent of the logarithm used by the fidelity scorer. -/
theorem runRounds_lg_master {G R : Type} (E : Externals G R) (cfg : Config)
    (lg lg2 : ℚ → ℚ) :
    ∀ (n : Nat) (st : LoopState G R),
      (runRounds E cfg lg n st).map (fun segs =>
        (writeEvents segs.flatten, segs.flatten.map Event.tag)) =
      (runRounds E cfg lg2 n st).map (fun segs =>
        (writeEvents segs.flatten, segs.flatten.map Event.tag)) := by
  intro n
  induction n with
  | zero => intro st; rfl
  | succ n ih =>
    intro st
    have hstep := roundStep_lg_indep E cfg lg lg2 st
    cases h1 : roundStep E cfg lg st with
    | error m =>
      rw [h1] at hstep
      cases h2 : roundStep E cfg lg2 st with
      | error m2 =>
        rw [h2] at hstep
        simp only [Except.map] at hstep
        injection hstep with hm
        subst hm
        simp only [runRounds, h1, h2]
      | ok pr2 =>
        rw [h2] at hstep
        simp only [Except.map] at hstep
        exact Except.noConfusion hstep
    | ok pr =>
      obtain ⟨st2, evs⟩ := pr
      rw [h1] at hstep
      cases h2 : roundStep E cfg lg2 st with
      | error m2 =>
        rw [h2] at hstep
        simp only [Except.map] at hstep
        exact Except.noConfusion hstep
      | ok pr2 =>
        obtain ⟨st2b, evs2⟩ := pr2
        rw [h2] at hstep
        simp only [Except.map] at hstep
        injection hstep with h3
        injection h3 with hst h4
        injection h4 with hwe2 htag2
        subst hst
        simp only [runRounds, h1, h2]
        have ih2 := ih st2
        cases h4' : runRounds E cfg lg n st2 with
        | error m =>
          rw [h4'] at ih2
          cases h5 : runRounds E cfg lg2 n st2 with
          | error m2 =>
            rw [h5] at ih2
            simp only [Except.map] at ih2
            injection ih2 with hm
            subst hm
            rfl
          | ok rest2 =>
            rw [h5] at ih2
            simp only [Except.map] at ih2
            exact Except.noConfusion ih2
        | ok rest =>
          rw [h4'] at ih2
          cases h5 : runRounds E cfg lg2 n st2 with
          | error m2 =>
            rw [h5] at ih2
            simp only [Except.map] at ih2
            exact Except.noConfusion ih2
          | ok rest2 =>
            rw [h5] at ih2
            simp only [Except.map] at ih2
            injection ih2 with h6
            injection h6 with hwe6 htag6
            simp only [Except.map, List.flatten_cons]
            congr 1
            congr 1
            · rw [writeEvents_append, writeEvents_append, hwe2, hwe6]
            · rw [List.map_append, List.map_append, htag2, htag6]

/-- A run succeeds with trace `tr` exactly when its round loop
succeeds with segments flattening to `tr`. -/
theorem handleOptions_ok_iff {G R : Type} (E : Externals G R) (cfg : Config)
    (lg : ℚ → ℚ) (e : Int) (tr : List Event) :
    handleOptions E cfg lg e = Except.ok tr ↔
    ∃ segs, runRounds E cfg lg cfg.multiBatch
      (initState E cfg (cfg.seed.getD e)) = Except.ok segs ∧
      tr = segs.flatten := by
  constructor
  · intro h
    simp only [handleOptions] at h
    cases hs : runRounds E cfg lg cfg.multiBatch
        (initState E cfg (cfg.seed.getD e)) with
    | error m => simp only [hs] at h; exact Except.noConfusion h
    | ok segs =>
      simp only [hs] at h
      injection h with h2
      exact ⟨segs, rfl, h2.symm⟩
  · rintro ⟨segs, hs, rfl⟩
    simp only [handleOptions, hs]

/-- Claim C5 amended: every completed run consists of exactly
`multiBatch` rounds, each emitting, in order, ComputeBatchSize,
GenerateBatch, ApplyBatch, AnalyzeDistributions, WriteOutput and then
ScoreFidelity — the round's output file is written *before* fidelity
scoring, not after it. -/
theorem round_event_order {G R : Type} (E : Externals G R) (cfg : Config)
    (lg : ℚ → ℚ) (e : Int) (tr : List Event)
    (h : handleOptions E cfg lg e = Except.ok tr) :
    tr.map Event.tag = (List.replicate cfg.multiBatch perRoundTags).flatten := by
  obtain ⟨segs, hs, rfl⟩ := (handleOptions_ok_iff E cfg lg e tr).mp h
  exact (runRounds_master E cfg lg cfg.multiBatch _ segs hs).2.2.2.1

/-- Claim C5 amended, witness: the two-round concrete run exhibits the
per-round tag sequence twice. -/
theorem round_event_order_witness :
    trTwo.map Event.tag = (List.replicate cfgTwo.multiBatch perRoundTags).flatten :=
  round_event_order E₀ cfgTwo lnStub 0 trTwo (by rfl)

/-- Claim C5 counterexample: in a concrete one-round run the actual
tag order writes the output file (fifth step) before fidelity scoring
(sixth step), which differs from the claimed order in which
ScoreFidelity precedes WriteOutput. -/
theorem write_before_score_cex :
    (handleOptions E₀ cfgOne lnStub 0).map (fun tr => tr.map Event.tag) =
      Except.ok [Tag.computeBatchSize, Tag.generateBatch, Tag.applyBatch,
        Tag.analyzeDistributions, Tag.writeOutput, Tag.scoreFidelity] ∧
    ([Tag.computeBatchSize, Tag.generateBatch, Tag.applyBatch,
      Tag.analyzeDistributions, Tag.writeOutput, Tag.scoreFidelity] : List Tag) ≠
      [Tag.computeBatchSize, Tag.generateBatch, Tag.applyBatch,
       Tag.analyzeDistributions, Tag.scoreFidelity, Tag.writeOutput] :=
  ⟨by rfl, by decide⟩

/-- Claim C7: a completed run with round count `multiBatch` writes
exactly one file per round, at `<outputDir><outputPrefix>_<counter>`
with counters 1, 2, …, `multiBatch` in order; counters are never
reused or reset, and score outcomes do not change the file list. -/
theorem output_files_exact {G R : Type} (E : Externals G R) (cfg : Config)
    (lg : ℚ → ℚ) (e : Int) (tr : List Event)
    (h : handleOptions E cfg lg e = Except.ok tr) :
    (writeEvents tr).map Prod.fst = (List.range cfg.multiBatch).map (fun i =>
      cfg.outputDir ++ cfg.outputPrefix ++ "_" ++ toString (i + 1)) := by
  obtain ⟨segs, hs, rfl⟩ := (handleOptions_ok_iff E cfg lg e tr).mp h
  have hm := (runRounds_master E cfg lg cfg.multiBatch _ segs hs).2.2.1
  simpa [initState] using hm

/-- Claim C7 witness: the two-round concrete run writes exactly
`out/g_1` and `out/g_2`, in that order. -/
theorem output_files_exact_witness :
    (writeEvents trTwo).map Prod.fst = (List.range cfgTwo.multiBatch).map (fun i =>
      cfgTwo.outputDir ++ cfgTwo.outputPrefix ++ "_" ++ toString (i + 1)) :=
  output_files_exact E₀ cfgTwo lnStub 0 trTwo (by rfl)

/-- Claim C6 amended: when a nonzero batch size is configured every
round uses it unchanged; when the configured size is zero, a round
entering with the size still zero re-derives it as
trunc(edge count × ratio) — in particular the first round derives it
from the initial edge count — and once any round's effective size is
nonzero, every later round reuses that value unchanged.  (The claim's
unconditional reuse of the first round's derived value fails when that
derived value is zero: the zero is re-derived against the grown
graph.) -/
theorem batch_size_sticky {G R : Type} (E : Externals G R) (cfg : Config)
    (lg : ℚ → ℚ) (e : Int) (tr : List Event)
    (h : handleOptions E cfg lg e = Except.ok tr) :
    List.Chain' (fun a b => a ≠ 0 → b = a) (batchSizes tr) ∧
    (cfg.batchSize ≠ 0 → ∀ b ∈ batchSizes tr, b = cfg.batchSize) ∧
    (cfg.batchSize = 0 → 0 < cfg.multiBatch → (batchSizes tr).head? =
      some (truncQ ((E.size E.initGraph : ℚ) * cfg.batchSizeRatio))) := by
  obtain ⟨segs, hs, rfl⟩ := (handleOptions_ok_iff E cfg lg e tr).mp h
  obtain ⟨-, -, -, -, hhead, hchain, hall⟩ :=
    runRounds_master E cfg lg cfg.multiBatch _ segs hs
  refine ⟨hchain, fun hnz => hall (by simpa [initState] using hnz), ?_⟩
  intro h0 hpos
  rw [hhead hpos]
  simp [initState, effectiveBatchSize, h0]

/-- Claim C6 amended, witness at the unset-batch-size concrete run. -/
theorem batch_size_sticky_witness :
    List.Chain' (fun a b => a ≠ 0 → b = a) (batchSizes trZero) ∧
    (cfgZero.batchSize ≠ 0 → ∀ b ∈ batchSizes trZero, b = cfgZero.batchSize) ∧
    (cfgZero.batchSize = 0 → 0 < cfgZero.multiBatch → (batchSizes trZero).head? =
      some (truncQ ((E₀.size E₀.initGraph : ℚ) * cfgZero.batchSizeRatio))) :=
  batch_size_sticky E₀ cfgZero lnStub 0 trZero (by rfl)

/-- Claim C6 counterexample: with batch size unset, ratio 1/10 and an
initial edge count of 5, the first round derives
`trunc(5 × 1/10) = 0`, yet the second round does not reuse that
derived value — the graph has grown to 10 edges and the round
re-derives `trunc(10 × 1/10) = 1`, so the two rounds use effective
batch sizes 0 and 1. -/
theorem batch_size_rederived_cex :
    (handleOptions E₀ cfgZero lnStub 0).map batchSizes = Except.ok [0, 1] ∧
    truncQ ((E₀.size E₀.initGraph : ℚ) * cfgZero.batchSizeRatio) = 0 ∧
    (0 : Int) ≠ 1 :=
  ⟨by with_unfolding_all rfl, by with_unfolding_all rfl, by decide⟩

/-- Claim C4: a DivergenceUndefined failure in fidelity scoring is
recovered locally.  In every completed run, any round whose
`scoreFidelity` outcome is an error still contains that round's
`writeOutput` (the file is written before scoring), the run still
consists of all `multiBatch` rounds, and replacing the scorer's
logarithm — hence any score outcome — changes neither the run's
success, nor its written files (which capture the serialized graph
states), nor its step sequence. -/
theorem divergence_error_recovered {G R : Type} (E : Externals G R)
    (cfg : Config) (lg : ℚ → ℚ) (e : Int) (tr : List Event)
    (h : handleOptions E cfg lg e = Except.ok tr) :
    (∃ segs : List (List Event), tr = segs.flatten ∧
      segs.length = cfg.multiBatch ∧
      ∀ seg ∈ segs, ∀ err : String,
        Event.scoreFidelity (Except.error err) ∈ seg →
        ∃ bs p c, seg = [Event.computeBatchSize bs, Event.generateBatch,
          Event.applyBatch, Event.analyzeDistributions, Event.writeOutput p c,
          Event.scoreFidelity (Except.error err)]) ∧
    ∀ lg2 : ℚ → ℚ, ∃ tr2, handleOptions E cfg lg2 e = Except.ok tr2 ∧
      writeEvents tr2 = writeEvents tr ∧ tr2.map Event.tag = tr.map Event.tag := by
  obtain ⟨segs, hs, rfl⟩ := (handleOptions_ok_iff E cfg lg e tr).mp h
  obtain ⟨hlen, hshape, -, -, -, -, -⟩ :=
    runRounds_master E cfg lg cfg.multiBatch _ segs hs
  constructor
  · refine ⟨segs, rfl, hlen, ?_⟩
    intro seg hmem err herr
    obtain ⟨bs, p, c, sc, rfl⟩ := hshape seg hmem
    simp only [List.mem_cons, List.not_mem_nil, or_false] at herr
    rcases herr with h1 | h1 | h1 | h1 | h1 | h1
    · exact absurd h1 (by simp)
    · exact absurd h1 (by simp)
    · exact absurd h1 (by simp)
    · exact absurd h1 (by simp)
    · exact absurd h1 (by simp)
    · injection h1 with h2
      exact ⟨bs, p, c, by rw [h2]⟩
  · intro lg2
    have hlg := runRounds_lg_master E cfg lg lg2 cfg.multiBatch
      (initState E cfg (cfg.seed.getD e))
    rw [hs] at hlg
    cases h2 : runRounds E cfg lg2 cfg.multiBatch
        (initState E cfg (cfg.seed.getD e)) with
    | error m =>
      rw [h2] at hlg
      simp only [Except.map] at hlg
      exact Except.noConfusion hlg
    | ok segs2 =>
      rw [h2] at hlg
      simp only [Except.map] at hlg
      injection hlg with h3
      injection h3 with hwe htags
      exact ⟨segs2.flatten, (handleOptions_ok_iff E cfg lg2 e _).mpr ⟨segs2, h2, rfl⟩,
        hwe.symm, htags.symm⟩

/-- Claim C4 witness at the two-round concrete run, in which the
scorer does throw (the in-degree probability vector is nonempty while
the weight vector is empty) and both files are still written. -/
theorem divergence_error_recovered_witness :
    (∃ segs : List (List Event), trTwo = segs.flatten ∧
      segs.length = cfgTwo.multiBatch ∧
      ∀ seg ∈ segs, ∀ err : String,
        Event.scoreFidelity (Except.error err) ∈ seg →
        ∃ bs p c, seg = [Event.computeBatchSize bs, Event.generateBatch,
          Event.applyBatch, Event.analyzeDistributions, Event.writeOutput p c,
          Event.scoreFidelity (Except.error err)]) ∧
    ∀ lg2 : ℚ → ℚ, ∃ tr2, handleOptions E₀ cfgTwo lg2 0 = Except.ok tr2 ∧
      writeEvents tr2 = writeEvents trTwo ∧
      tr2.map Event.tag = trTwo.map Event.tag :=
  divergence_error_recovered E₀ cfgTwo lnStub 0 trTwo (by rfl)

end DynGraph
